import Mathlib

/-!
Verification of the `echoer` multi-protocol echo service.

This file shallowly embeds the core of the repository:
  * `echoer/_funcs.py`  — the request normalizer `echo`
  * `echoer/_utils.py`  — SOAP codec (`parse_soap_echo_request`,
    `make_response_body`, `make_fault_response_body`, `make_wsdl`) and the
    JSON-RPC schema validation (`_json_rpc_schema` / `parse_rpc_echo_request`)
  * `echoer/routes.py`  — the protocol dispatch handlers `rest`, `echo_soap`,
    `rpc_endpoint`

Python byte strings are `List Nat` (each entry < 256), Python `str` values are
Lean `String`s, Python dicts that cross the wire are modelled by the `Json`
inductive below.  External libraries (the XML parser `fromstring`, `json.loads`
and `json.dumps`) are abstract function parameters of the handlers; everything
the repository itself computes is embedded concretely.
-/

set_option maxRecDepth 4000

/-- JSON-like values: the shape of the Python dicts/lists the service builds.
Numbers are restricted to integers (the only numbers the service itself ever
produces; the JSON-RPC schema treats any number alike). -/
inductive Json where
  | null : Json
  | b (x : Bool) : Json
  | i (n : Int) : Json
  | s (x : String) : Json
  | arr (xs : List Json) : Json
  | obj (kvs : List (String × Json)) : Json

/-- First-match key lookup in a JSON object, mirroring Python dict indexing
(keys of dicts produced by `json.loads` are unique). -/
def Json.lookup : List (String × Json) → String → Option Json
  | [], _ => none
  | (k, v) :: rest, key => if k = key then some v else Json.lookup rest key

/-- The field list of an object, `[]` for any other value. -/
def Json.objFields : Json → List (String × Json)
  | .obj kvs => kvs
  | _ => []

/-! ## UTF-8 decoding (`bytes.decode("utf-8")`, strict errors)

Python's strict UTF-8 decoder accepts exactly the well-formed byte sequences of
the Unicode standard (Table 3-7): no overlong forms, no surrogates, nothing
above U+10FFFF.  `utf8Decode` returns the decoded code points. -/

def isUtf8Cont (c : Nat) : Bool := 0x80 ≤ c && c ≤ 0xBF

/-- Decode one UTF-8 sequence off the front of the byte list; `some (cp, rest)`
on success.  The guards are exactly the well-formed ranges of Unicode
Table 3-7, which is what Python's strict decoder enforces. -/
def utf8Step (l : List Nat) : Option (Nat × List Nat) :=
  match l with
  | [] => none
  | b :: bs =>
    if b ≤ 0x7F then some (b, bs)
    else if 0xC2 ≤ b ∧ b ≤ 0xDF then
      match bs with
      | c1 :: bs1 =>
        if isUtf8Cont c1 then some ((b - 0xC0) * 64 + (c1 - 0x80), bs1) else none
      | [] => none
    else if 0xE0 ≤ b ∧ b ≤ 0xEF then
      match bs with
      | c1 :: c2 :: bs2 =>
        if isUtf8Cont c1 ∧ isUtf8Cont c2 ∧ (b = 0xE0 → 0xA0 ≤ c1) ∧ (b = 0xED → c1 ≤ 0x9F) then
          some ((b - 0xE0) * 4096 + (c1 - 0x80) * 64 + (c2 - 0x80), bs2)
        else none
      | _ => none
    else if 0xF0 ≤ b ∧ b ≤ 0xF4 then
      match bs with
      | c1 :: c2 :: c3 :: bs3 =>
        if isUtf8Cont c1 ∧ isUtf8Cont c2 ∧ isUtf8Cont c3 ∧
            (b = 0xF0 → 0x90 ≤ c1) ∧ (b = 0xF4 → c1 ≤ 0x8F) then
          some ((b - 0xF0) * 262144 + (c1 - 0x80) * 4096 + (c2 - 0x80) * 64 + (c3 - 0x80), bs3)
        else none
      | _ => none
    else none

/-- The decoding loop, with the number of remaining steps made explicit so that
the recursion is structural.  `utf8Decode` below supplies enough fuel. -/
def utf8DecodeFuel : Nat → List Nat → Option (List Nat)
  | _, [] => some []
  | 0, _ :: _ => none
  | fuel + 1, b :: bs =>
    match utf8Step (b :: bs) with
    | some (cp, rest) => (utf8DecodeFuel fuel rest).map (cp :: ·)
    | none => none

def utf8Decode (l : List Nat) : Option (List Nat) := utf8DecodeFuel l.length l

/-- A Unicode scalar value: what a code point of a decoded Python `str` is. -/
def Utf8Scalar (n : Nat) : Prop := n < 0xD800 ∨ (0xDFFF < n ∧ n < 0x110000)

instance (n : Nat) : Decidable (Utf8Scalar n) := by
  unfold Utf8Scalar; infer_instance

/-- Standard UTF-8 encoding of one scalar value. -/
def utf8EncodeCp (n : Nat) : List Nat :=
  if n ≤ 0x7F then [n]
  else if n ≤ 0x7FF then [0xC0 + n / 64, 0x80 + n % 64]
  else if n ≤ 0xFFFF then [0xE0 + n / 4096, 0x80 + n / 64 % 64, 0x80 + n % 64]
  else [0xF0 + n / 262144, 0x80 + n / 4096 % 64, 0x80 + n / 64 % 64, 0x80 + n % 64]

def utf8Encode (cps : List Nat) : List Nat := cps.flatMap utf8EncodeCp

/-- The specification-side notion of "the byte string is valid UTF-8": it is
the encoding of some sequence of Unicode scalar values. -/
def ValidUtf8 (bs : List Nat) : Prop :=
  ∃ cps : List Nat, (∀ n ∈ cps, Utf8Scalar n) ∧ utf8Encode cps = bs

/-- Decoded code points viewed as a Lean string (Python `str`). -/
def strOfCps (cps : List Nat) : String := String.mk (cps.map Char.ofNat)

/-! ## Strings: `markupsafe.escape` and Werkzeug header lookup -/

/-- One character of `markupsafe.escape`: the five HTML/XML-significant
characters are replaced by their textual escapes, all others pass through. -/
def escapeChar (c : Char) : String :=
  if c = '&' then "&amp;"
  else if c = '<' then "&lt;"
  else if c = '>' then "&gt;"
  else if c = '"' then "&#34;"
  else if c = '\'' then "&#39;"
  else String.mk [c]

/-- `markupsafe.escape` on a `str`. -/
def markupEscape (s : String) : String := String.join (s.data.map escapeChar)

/-- `markupsafe.escape` on `str | None`: a `None` argument is first rendered by
`str()` as the text `"None"` and then escaped (which leaves it unchanged). -/
def markupEscapeParam : Option String → String
  | some s => markupEscape s
  | none => markupEscape "None"

def asciiLowerChar (c : Char) : Char :=
  if 65 ≤ c.toNat ∧ c.toNat ≤ 90 then Char.ofNat (c.toNat + 32) else c

/-- ASCII case folding (HTTP header names are ASCII). -/
def asciiLower (s : String) : String := String.mk (s.data.map asciiLowerChar)

/-- Werkzeug `Headers.__getitem__`: the value of the FIRST header instance
whose name matches case-insensitively. -/
def headerGet (hs : List (String × String)) (k : String) : Option String :=
  (hs.find? (fun p => asciiLower p.1 == asciiLower k)).map Prod.snd

/-! ## The request normalizer (`echoer/_funcs.py`) -/

/-- The inbound-request abstraction the normalizer consumes (a Flask
`Request`): raw body bytes, parsed form fields, peer address/port, method,
path, protocol, query args and the ordered duplicate-preserving header list.
`remote_port`/`server_protocol` model `environ.get(...)` (absent ⇒ `None`). -/
structure Request where
  data : List Nat
  form : List (String × String)
  remote_addr : Option String
  remote_port : Option String
  server_protocol : Option String
  method : String
  path : String
  args : List (String × String)
  headers : List (String × String)

/-- The uniform echo structure built by `echo` (the EchoDocument). -/
structure EchoDoc where
  host : Option String
  port : Option String
  method : String
  path : String
  protocol : Option String
  params : String
  query_param : List (String × String)
  headers : List (String × String)
  body : String ⊕ List (String × String)
  op_result : Option Json

/-- `echoer._funcs.echo`.  `none` models the `UnicodeDecodeError` raised by
`req.data.decode("utf-8")` on invalid UTF-8; everything else is total.
The `headerGet ... |>.getD ""` default is never hit: the looked-up name is
itself a member of the list. -/
def echo (req : Request) (req_param : Option String) (op_res : Option Json) :
    Option EchoDoc :=
  (utf8Decode req.data).map (fun cps =>
    { host := req.remote_addr
      port := req.remote_port
      method := req.method
      path := req.path
      protocol := req.server_protocol
      params := markupEscapeParam req_param
      query_param := req.args
      headers := req.headers.map (fun p => (p.1, (headerGet req.headers p.1).getD ""))
      body := if req.form.isEmpty then Sum.inl (strOfCps cps) else Sum.inr req.form
      op_result := op_res })

def optStrJson : Option String → Json
  | none => Json.null
  | some s => Json.s s

/-- `json.dumps` renders the body field either as a JSON string or, for the
form case, as an array of `[key, value]` pairs (tuples become arrays). -/
def bodyJson : String ⊕ List (String × String) → Json
  | Sum.inl s => Json.s s
  | Sum.inr kvs => Json.arr (kvs.map (fun p => Json.arr [Json.s p.1, Json.s p.2]))

/-- The EchoDocument as the JSON value the handlers serialize. -/
def EchoDoc.toJson (d : EchoDoc) : Json :=
  Json.obj [
    ("client", Json.obj [("host", optStrJson d.host), ("port", optStrJson d.port)]),
    ("request", Json.obj [
      ("http", Json.obj [("method", Json.s d.method), ("path", Json.s d.path),
                         ("protocol", optStrJson d.protocol)]),
      ("params", Json.s d.params),
      ("query_param", Json.obj (d.query_param.map (fun p => (p.1, Json.s p.2)))),
      ("headers", Json.arr (d.headers.map (fun p => Json.obj [(p.1, Json.s p.2)]))),
      ("body", bodyJson d.body)]),
    ("op_result", d.op_result.getD Json.null)]

/-! ## REST dispatch (`routes.rest`) -/

/-- A REST/RPC response: status, content type and the JSON value whose
`json.dumps` rendering is the body. -/
structure HttpResponse where
  status : Nat
  contentType : String
  body : Json

def restErrorBody : Json := Json.obj [("error", Json.s "Request must be valid Unicode")]

/-- `routes.rest`: evaluates `request.data.decode("utf-8")` for `op_res`, then
runs `echo`; a `UnicodeDecodeError` from either is caught and answered with
HTTP 500 `{"error": "Request must be valid Unicode"}`. -/
def rest (req : Request) : HttpResponse :=
  match (utf8Decode req.data).bind
      (fun cps => echo req none (some (Json.s (strOfCps cps)))) with
  | some d => { status := 200, contentType := "application/json", body := d.toJson }
  | none => { status := 500, contentType := "application/json", body := restErrorBody }

/-! ## XML trees and the SOAP codec (`echoer/_utils.py`)

An `ElementTree` element: tag (in Clark notation `{namespace}local` for
qualified names), attributes in declaration order, text, children. -/

inductive XmlElem where
  | mk (tag : String) (attrs : List (String × String)) (text : Option String)
      (children : List XmlElem)

def XmlElem.tag : XmlElem → String
  | .mk t _ _ _ => t

def XmlElem.attrs : XmlElem → List (String × String)
  | .mk _ a _ _ => a

def XmlElem.text : XmlElem → Option String
  | .mk _ _ x _ => x

def XmlElem.children : XmlElem → List XmlElem
  | .mk _ _ _ ch => ch

/-- Clark notation `{ns}name`, as produced by `_qname` / `QName(...).text`. -/
def qname (ns name : String) : String := "\x7b" ++ ns ++ "\x7d" ++ name

def SOAP_WSDL : String := "http://schemas.xmlsoap.org/wsdl/"

def SOAP_NS : String := "http://schemas.xmlsoap.org/wsdl/soap/"

def SOAP_XSD : String := "http://www.w3.org/2001/XMLSchema"

def SOAP_ENVELOPE : String := "http://schemas.xmlsoap.org/soap/envelope/"

/-- `Config.SOAP_TNS`, derived from the service address. -/
def SOAP_TNS (addr : String) : String := addr ++ "/echo/soap"

/-- `ElementTree.find(".//tag")` over a list of subtrees: first match in
document order (an element before its descendants, descendants before later
siblings). -/
def findDescList (tagName : String) : List XmlElem → Option XmlElem
  | [] => none
  | XmlElem.mk t a x ch :: cs =>
    if t = tagName then some (XmlElem.mk t a x ch)
    else
      match findDescList tagName ch with
      | some r => some r
      | none => findDescList tagName cs

/-- `ElementTree.find("tag")`: first DIRECT child with exactly this tag.  Note
that a namespace-qualified child has tag `{ns}tag` and does not match. -/
def findChild (tagName : String) (e : XmlElem) : Option XmlElem :=
  e.children.find? (fun c => c.tag == tagName)

/-- `_utils.parse_soap_echo_request`, after `fromstring` has produced the
element tree.  The error strings are the `ValueError` messages of the source.
`text.getD ""` models `echo_request_el.text or ""` (a `None` or empty text
both yield `""`). -/
def parse_soap_echo_request (doc : XmlElem) : Except String String :=
  match findDescList (qname SOAP_ENVELOPE "Body") doc.children with
  | none => Except.error "Empty SOAP Body"
  | some body =>
    if body.children.length = 0 then Except.error "Empty SOAP Body"
    else
      match findChild "EchoRequest" body with
      | none => Except.error "Missing EchoRequest element"
      | some el => Except.ok (el.text.getD "")

/-- `_utils.make_response_body` (the serialization to bytes is external; the
tree it serializes is modelled). -/
def make_response_body (addr response : String) : XmlElem :=
  XmlElem.mk (qname SOAP_ENVELOPE "Envelope")
    [("soap", SOAP_ENVELOPE), ("tns", SOAP_TNS addr)] none
    [XmlElem.mk (qname SOAP_ENVELOPE "Body") [] none
      [XmlElem.mk "EchoResponse" [] (some response) []]]

/-- `_utils.make_fault_response_body`. -/
def make_fault_response_body (addr code message : String) : XmlElem :=
  XmlElem.mk (qname SOAP_ENVELOPE "Envelope") [("soap", SOAP_ENVELOPE)] none
    [XmlElem.mk (qname SOAP_ENVELOPE "Body") [] none
      [XmlElem.mk (qname (SOAP_TNS addr) "Fault") [] none
        [XmlElem.mk "faultcode" [] (some code) [],
         XmlElem.mk "faultstring" [] (some message) []]]]

/-- `_utils._add_message` (functional form: returns the subtree it appends). -/
def addMessage (name : String) (ps : List (String × String)) : XmlElem :=
  XmlElem.mk (qname SOAP_WSDL "message") [("name", name)] none
    (ps.map (fun p => XmlElem.mk (qname SOAP_WSDL "part")
      [("name", p.1), ("type", "xsd:" ++ p.2)] none []))

/-- `_utils._add_operation`. -/
def addOperation (op_name in_msg out_msg : String) : XmlElem :=
  XmlElem.mk (qname SOAP_WSDL "operation") [("name", op_name)] none
    [XmlElem.mk (qname SOAP_WSDL "input") [("message", "tns:" ++ in_msg)] none [],
     XmlElem.mk (qname SOAP_WSDL "output") [("message", "tns:" ++ out_msg)] none []]

/-- `_utils._bind_operation`. -/
def bindOperation (op_name soap_action : String) : XmlElem :=
  XmlElem.mk (qname SOAP_WSDL "operation") [("name", op_name)] none
    [XmlElem.mk (qname SOAP_NS "operation") [("soapAction", soap_action)] none [],
     XmlElem.mk (qname SOAP_WSDL "input") [] none
       [XmlElem.mk (qname SOAP_NS "body") [("use", "literal")] none []],
     XmlElem.mk (qname SOAP_WSDL "output") [] none
       [XmlElem.mk (qname SOAP_NS "body") [("use", "literal")] none []]]

/-- `_utils.make_wsdl`, parameterized by `Config.SERVICE_ADDRESS`. -/
def make_wsdl (addr : String) : XmlElem :=
  XmlElem.mk (qname SOAP_WSDL "definitions")
    [("targetNamespace", SOAP_TNS addr), ("xmlns:tns", SOAP_TNS addr),
     ("xmlns:soap", SOAP_NS), ("xmlns:xsd", SOAP_XSD), ("xmlns", SOAP_WSDL)] none
    [XmlElem.mk (qname SOAP_WSDL "types") [] none [],
     addMessage "EchoRequest" [("EchoRequest", "string")],
     addMessage "EchoResponse" [("EchoResponse", "string")],
     XmlElem.mk (qname SOAP_WSDL "portType") [("name", "EchoPortType")] none
       [addOperation "Echo" "EchoRequest" "EchoResponse"],
     XmlElem.mk (qname SOAP_WSDL "binding")
       [("name", "EchoBinding"), ("type", "tns:EchoPortType")] none
       [XmlElem.mk (qname SOAP_NS "binding")
          [("transport", "http://schemas.xmlsoap.org/soap/http"),
           ("style", "document")] none [],
        bindOperation "Echo" (addr ++ "/echo/soap")],
     XmlElem.mk (qname SOAP_WSDL "service") [("name", "EchoService")] none
       [XmlElem.mk (qname SOAP_WSDL "port")
          [("name", "EchoPort"), ("binding", "tns:EchoBinding")] none
          [XmlElem.mk (qname SOAP_NS "address")
             [("location", addr ++ "/echo/soap")] none []]]]

def XmlElem.attr (e : XmlElem) (k : String) : Option String :=
  (e.attrs.find? (fun p => p.1 == k)).map Prod.snd

def wsdlTargetNamespace (w : XmlElem) : Option String := w.attr "targetNamespace"

/-- The `soapAction` attribute of the binding's `soap:operation` element. -/
def wsdlSoapAction (w : XmlElem) : Option String :=
  (findDescList (qname SOAP_NS "operation") w.children).bind (fun e => e.attr "soapAction")

/-- The `location` attribute of the service port's `soap:address` element. -/
def wsdlPortLocation (w : XmlElem) : Option String :=
  (findDescList (qname SOAP_NS "address") w.children).bind (fun e => e.attr "location")

/-! ## SOAP dispatch (`routes.echo_soap`) -/

/-- A SOAP response: status, content type and the XML tree whose
serialization is the body. -/
structure XmlResponse where
  status : Nat
  contentType : String
  body : XmlElem

def soapFaultResponse (addr msg : String) : XmlResponse :=
  { status := 500, contentType := "application/xml",
    body := make_fault_response_body addr "Client" msg }

/-- `routes.echo_soap`.  `xmlParse` abstracts `fromstring` (`none` models a
raised `ParseError`); `dumps` abstracts `json.dumps`.  The final `none` arm
is an uncaught `UnicodeDecodeError` escaping the handler, which can only
happen when `fromstring` accepted bytes that are not valid UTF-8 (a non-UTF-8
document encoding). -/
def echo_soap (xmlParse : List Nat → Option XmlElem) (dumps : Json → String)
    (addr : String) (req : Request) : Option XmlResponse :=
  match xmlParse req.data with
  | none => some (soapFaultResponse addr "Malformed request data")
  | some doc =>
    match parse_soap_echo_request doc with
    | Except.error msg => some (soapFaultResponse addr msg)
    | Except.ok t =>
      match echo req none (some (Json.s t)) with
      | some d => some { status := 200, contentType := "application/xml; charset=utf-8",
                         body := make_response_body addr (dumps d.toJson) }
      | none => none

/-! ## JSON-RPC codec (`_utils._json_rpc_schema`, `parse_rpc_echo_request`)
and dispatch (`routes.rpc_endpoint`) -/

/-- A scalar in the sense of the third `params`-item alternative of the
schema: string, number, boolean or null. -/
def Json.isScalar : Json → Bool
  | .s _ => true
  | .i _ => true
  | .b _ => true
  | .null => true
  | _ => false

/-- One element of `params` per the schema's `items.anyOf`: an array (of
anything), an object (with values of anything), or a scalar. -/
def rpcParamsItemOk (v : Json) : Bool :=
  match v with
  | .arr _ => true
  | .obj _ => true
  | v => v.isScalar

def rpcRequiredKeys : List String := ["jsonrpc", "method", "params", "id"]

def rpcIdOk : Json → Bool
  | .i _ => true
  | .s _ => true
  | .null => true
  | _ => false

/-- The `jsonrpc` property subschema: a string equal to the constant "2.0". -/
def rpcJsonrpcOk : Json → Bool
  | .s x => x == "2.0"
  | _ => false

/-- The `method` property subschema: a string of length at least 1. -/
def rpcMethodOk : Json → Bool
  | .s m => decide (1 ≤ m.length)
  | _ => false

/-- The `params` property subschema: an array of admissible items. -/
def rpcParamsOk : Json → Bool
  | .arr xs => xs.all rpcParamsItemOk
  | _ => false

/-- Validation against `_json_rpc_schema` (draft-07 semantics of that fixed
schema document): type object; required `jsonrpc, method, params, id`;
`additionalProperties: false`; `jsonrpc` the string constant "2.0"; `method` a
string with `minLength` 1; `params` an array of admissible items; `id` an
integer, string or null. -/
def validateRpc : Json → Bool
  | .obj kvs =>
    rpcRequiredKeys.all (fun k => (Json.lookup kvs k).isSome) &&
    kvs.all (fun kv => rpcRequiredKeys.contains kv.1) &&
    (Json.lookup kvs "jsonrpc").all rpcJsonrpcOk &&
    (Json.lookup kvs "method").all rpcMethodOk &&
    (Json.lookup kvs "params").all rpcParamsOk &&
    (Json.lookup kvs "id").all rpcIdOk
  | _ => false

/-- `_utils.parse_rpc_echo_request`: UTF-8 decode, then `json.loads`
(abstracted as `jsonLoads`), then schema validation.  The error constructors
name the exception classes the dispatch handler catches. -/
inductive RpcFail where
  | unicodeDecodeError
  | jsonDecodeError
  | validationError

def parse_rpc_echo_request (jsonLoads : String → Option Json) (rbody : List Nat) :
    Except RpcFail Json :=
  match utf8Decode rbody with
  | none => Except.error RpcFail.unicodeDecodeError
  | some cps =>
    match jsonLoads (strOfCps cps) with
    | none => Except.error RpcFail.jsonDecodeError
    | some v => if validateRpc v then Except.ok v else Except.error RpcFail.validationError

def rpcParseErrorResponse : HttpResponse :=
  { status := 400, contentType := "application/json",
    body := Json.obj [("jsonrpc", Json.s "2.0"),
                      ("error", Json.obj [("code", Json.i (-32700)),
                                          ("message", Json.s "Parse error")]),
                      ("id", Json.null)] }

def rpcMethodNotFoundBody (idv : Json) : Json :=
  Json.obj [("jsonrpc", Json.s "2.0"),
            ("error", Json.obj [("code", Json.i (-32601)),
                                ("message", Json.s "Method not found")]),
            ("id", idv)]

/-- `routes.rpc_endpoint`.  The per-call registry holds only `"echo"`, so
indexing it raises `KeyError` exactly when the validated `method` is not
`"echo"` (method-not-found, still HTTP 200).  A `UnicodeDecodeError`,
`json.JSONDecodeError` or `ValidationError` from the try block is answered
with HTTP 400 Parse error; an (unreachable, since parsing already decoded the
same bytes) `UnicodeDecodeError` out of `echo` lands in the same clause.  The
`except ValueError` -32600 branch of the source is dead code: every
`ValueError` subclass that can be raised is caught by an earlier clause. -/
def rpc_endpoint (jsonLoads : String → Option Json) (req : Request) : HttpResponse :=
  match parse_rpc_echo_request jsonLoads req.data with
  | Except.error _ => rpcParseErrorResponse
  | Except.ok v =>
    let kvs := v.objFields
    let idv := (Json.lookup kvs "id").getD Json.null
    match Json.lookup kvs "method" with
    | some (Json.s m) =>
      if m = "echo" then
        match echo req none (some v) with
        | some d =>
          { status := 200, contentType := "application/json",
            body := Json.obj [("jsonrpc", Json.s "2.0"), ("result", d.toJson), ("id", idv)] }
        | none => rpcParseErrorResponse
      else
        { status := 200, contentType := "application/json",
          body := rpcMethodNotFoundBody idv }
    | _ => { status := 200, contentType := "application/json",
             body := rpcMethodNotFoundBody idv }


/-! ## Support definitions used by the statements below -/

/-- Everything after the first closing brace. -/
def dropThroughBrace : List Char → List Char
  | [] => []
  | c :: cs => if c = '\x7d' then cs else dropThroughBrace cs

/-- The local part of an ElementTree tag in Clark notation: everything after
the closing brace of `{namespace}local`, or the whole tag when unqualified. -/
def localTag (t : String) : String :=
  match t.data with
  | '\x7b' :: cs => String.mk (dropThroughBrace cs)
  | _ => t

/-- A manually constructed SOAP request envelope whose Body holds one
unqualified `EchoRequest` element with the given text. -/
def soapRequestEnvelope (x : Option String) : XmlElem :=
  XmlElem.mk (qname SOAP_ENVELOPE "Envelope") [("xmlns:soap", SOAP_ENVELOPE)] none
    [XmlElem.mk (qname SOAP_ENVELOPE "Body") [] none
      [XmlElem.mk "EchoRequest" [] x []]]

/-- A well-formed envelope whose Body's only child is an `EchoRequest`
element qualified with the target namespace (local tag `EchoRequest`). -/
def soapNamespacedRequestEnvelope : XmlElem :=
  XmlElem.mk (qname SOAP_ENVELOPE "Envelope") [("xmlns:soap", SOAP_ENVELOPE)] none
    [XmlElem.mk (qname SOAP_ENVELOPE "Body") [] none
      [XmlElem.mk (qname (SOAP_TNS "http://0.0.0.0:5080") "EchoRequest") [] (some "x") []]]

/-- An envelope whose Body's only child is named `Other`. -/
def soapOtherChildEnvelope : XmlElem :=
  XmlElem.mk (qname SOAP_ENVELOPE "Envelope") [] none
    [XmlElem.mk (qname SOAP_ENVELOPE "Body") [] none
      [XmlElem.mk "Other" [] (some "x") []]]

/-- A concrete request with ASCII body `"hi"` and a duplicated header name. -/
def reqHi : Request :=
  { data := [104, 105], form := [], remote_addr := some "127.0.0.1",
    remote_port := some "40000", server_protocol := some "HTTP/1.1",
    method := "POST", path := "/echo/rest", args := [],
    headers := [("X-Dup", "a"), ("X-Dup", "b"), ("Accept", "c")] }

/-- A concrete request whose body `[0xFF]` is not valid UTF-8. -/
def reqBad : Request :=
  { data := [0xFF], form := [], remote_addr := none, remote_port := none,
    server_protocol := none, method := "POST", path := "/echo/rest",
    args := [], headers := [] }

/-- An `xmlParse` stub returning a fixed result regardless of the bytes. -/
def xmlParseConst (r : Option XmlElem) : List Nat → Option XmlElem := fun _ => r

/-- A `json.dumps` stub. -/
def dumpsConst : Json → String := fun _ => "dump"

/-- A `json.loads` stub returning a fixed result. -/
def jsonLoadsConst (r : Option Json) : String → Option Json := fun _ => r

/-- The fields of a concrete well-formed JSON-RPC echo request. -/
def rpcSampleFields : List (String × Json) :=
  [("jsonrpc", Json.s "2.0"), ("method", Json.s "echo"),
   ("params", Json.arr [Json.s "a"]), ("id", Json.i 1)]

/-- A concrete well-formed JSON-RPC echo request. -/
def rpcSample : Json := Json.obj rpcSampleFields

/-- The iso-8859-1 bytes of a well-formed SOAP request document in a declared
non-UTF-8 encoding: `<?xml version="1.0" encoding="iso-8859-1"?>` wrapping an
`EchoRequest` whose text is `é` (the single byte 0xE9, not valid UTF-8). -/
def latin1SoapBytes : List Nat :=
  [ 60, 63, 120, 109, 108, 32, 118, 101, 114, 115, 105, 111, 110, 61, 34, 49,
   46, 48, 34, 32, 101, 110, 99, 111, 100, 105, 110, 103, 61, 34, 105, 115,
   111, 45, 56, 56, 53, 57, 45, 49, 34, 63, 62, 60, 115, 111, 97, 112, 58, 69,
   110, 118, 101, 108, 111, 112, 101, 32, 120, 109, 108, 110, 115, 58, 115,
   111, 97, 112, 61, 34, 104, 116, 116, 112, 58, 47, 47, 115, 99, 104, 101,
   109, 97, 115, 46, 120, 109, 108, 115, 111, 97, 112, 46, 111, 114, 103, 47,
   115, 111, 97, 112, 47, 101, 110, 118, 101, 108, 111, 112, 101, 47, 34, 62,
   60, 115, 111, 97, 112, 58, 66, 111, 100, 121, 62, 60, 69, 99, 104, 111, 82,
   101, 113, 117, 101, 115, 116, 62, 233, 60, 47, 69, 99, 104, 111, 82, 101,
   113, 117, 101, 115, 116, 62, 60, 47, 115, 111, 97, 112, 58, 66, 111, 100,
   121, 62, 60, 47, 115, 111, 97, 112, 58, 69, 110, 118, 101, 108, 111, 112,
   101, 62]

/-- A SOAP POST whose body is `latin1SoapBytes`: the XML parser accepts it,
but the bytes are not valid UTF-8. -/
def reqLatin1 : Request :=
  { data := latin1SoapBytes, form := [], remote_addr := none, remote_port := none,
    server_protocol := none, method := "POST", path := "/echo/soap",
    args := [], headers := [] }

/-! ## UTF-8 codec correctness -/

theorem utf8Step_length {l : List Nat} {cp : Nat} {rest : List Nat}
    (h : utf8Step l = some (cp, rest)) : rest.length < l.length := by
  rcases l with _ | ⟨b, _ | ⟨c1, _ | ⟨c2, _ | ⟨c3, bs⟩⟩⟩⟩
  · simp [utf8Step] at h
  all_goals
    simp only [utf8Step] at h
    split_ifs at h <;> cases h <;> simp only [List.length_cons] <;> omega

theorem utf8DecodeFuel_nil (fuel : Nat) : utf8DecodeFuel fuel [] = some [] := by
  cases fuel <;> rfl

theorem utf8DecodeFuel_irrel (fuel1 : Nat) : ∀ (fuel2 : Nat) (l : List Nat),
    l.length ≤ fuel1 → l.length ≤ fuel2 → utf8DecodeFuel fuel1 l = utf8DecodeFuel fuel2 l := by
  induction fuel1 with
  | zero =>
    intro fuel2 l h1 h2
    rcases l with _ | ⟨b, bs⟩
    · rw [utf8DecodeFuel_nil, utf8DecodeFuel_nil]
    · simp at h1
  | succ f1 ih =>
    intro fuel2 l h1 h2
    rcases l with _ | ⟨b, bs⟩
    · rw [utf8DecodeFuel_nil, utf8DecodeFuel_nil]
    · rcases fuel2 with _ | f2
      · simp at h2
      · show utf8DecodeFuel (f1 + 1) (b :: bs) = utf8DecodeFuel (f2 + 1) (b :: bs)
        simp only [utf8DecodeFuel]
        rcases hs : utf8Step (b :: bs) with _ | ⟨cp, rest⟩
        · rfl
        · dsimp only
          have hlen := utf8Step_length hs
          simp only [List.length_cons] at hlen h1 h2
          rw [ih f2 rest (by omega) (by omega)]

theorem utf8Decode_nil : utf8Decode [] = some [] := rfl

theorem utf8Decode_step_some {l : List Nat} {cp : Nat} {rest : List Nat}
    (h : utf8Step l = some (cp, rest)) :
    utf8Decode l = (utf8Decode rest).map (cp :: ·) := by
  rcases l with _ | ⟨b, bs⟩
  · simp [utf8Step] at h
  · show utf8DecodeFuel (bs.length + 1) (b :: bs) = _
    simp only [utf8DecodeFuel, h]
    have hlen : rest.length ≤ bs.length := by
      have := utf8Step_length h
      simp only [List.length_cons] at this
      omega
    rw [utf8DecodeFuel_irrel bs.length rest.length rest hlen (Nat.le_refl _)]
    rfl

theorem utf8Step_encodeCp (n : Nat) (h : Utf8Scalar n) (rest : List Nat) :
    utf8Step (utf8EncodeCp n ++ rest) = some (n, rest) := by
  rcases Nat.lt_or_ge n 0x80 with h1 | h1
  · have he : utf8EncodeCp n = [n] := by unfold utf8EncodeCp; rw [if_pos (by omega)]
    rw [he]
    show utf8Step (n :: rest) = _
    simp only [utf8Step]
    rw [if_pos (by omega)]
  · rcases Nat.lt_or_ge n 0x800 with h2 | h2
    · have he : utf8EncodeCp n = [0xC0 + n / 64, 0x80 + n % 64] := by
        unfold utf8EncodeCp; rw [if_neg (by omega), if_pos (by omega)]
      rw [he]
      show utf8Step ((0xC0 + n / 64) :: (0x80 + n % 64) :: rest) = _
      simp only [utf8Step]
      rw [if_neg (by omega), if_pos (by omega)]
      have hc : isUtf8Cont (0x80 + n % 64) = true := by
        unfold isUtf8Cont; simp only [decide_eq_true_eq, Bool.and_eq_true]; omega
      simp only [hc, if_true, Option.some.injEq, Prod.mk.injEq]
      exact ⟨by omega, trivial⟩
    · rcases Nat.lt_or_ge n 0x10000 with h3 | h3
      · have he : utf8EncodeCp n = [0xE0 + n / 4096, 0x80 + n / 64 % 64, 0x80 + n % 64] := by
          unfold utf8EncodeCp; rw [if_neg (by omega), if_neg (by omega), if_pos (by omega)]
        rw [he]
        show utf8Step ((0xE0 + n / 4096) :: (0x80 + n / 64 % 64) :: (0x80 + n % 64) :: rest) = _
        simp only [utf8Step]
        rw [if_neg (by omega), if_neg (by omega), if_pos (by omega)]
        have hguard : isUtf8Cont (0x80 + n / 64 % 64) = true ∧ isUtf8Cont (0x80 + n % 64) = true ∧
            (0xE0 + n / 4096 = 0xE0 → 0xA0 ≤ 0x80 + n / 64 % 64) ∧
            (0xE0 + n / 4096 = 0xED → 0x80 + n / 64 % 64 ≤ 0x9F) := by
          unfold isUtf8Cont
          simp only [decide_eq_true_eq, Bool.and_eq_true]
          rcases h with h | h <;> omega
        simp only [if_pos hguard, Option.some.injEq, Prod.mk.injEq]
        exact ⟨by omega, trivial⟩
      · have he : utf8EncodeCp n =
            [0xF0 + n / 262144, 0x80 + n / 4096 % 64, 0x80 + n / 64 % 64, 0x80 + n % 64] := by
          unfold utf8EncodeCp; rw [if_neg (by omega), if_neg (by omega), if_neg (by omega)]
        have hn : n < 0x110000 := by rcases h with h | h <;> omega
        rw [he]
        show utf8Step ((0xF0 + n / 262144) :: (0x80 + n / 4096 % 64) ::
          (0x80 + n / 64 % 64) :: (0x80 + n % 64) :: rest) = _
        simp only [utf8Step]
        rw [if_neg (by omega), if_neg (by omega), if_neg (by omega), if_pos (by omega)]
        have hguard : isUtf8Cont (0x80 + n / 4096 % 64) = true ∧
            isUtf8Cont (0x80 + n / 64 % 64) = true ∧ isUtf8Cont (0x80 + n % 64) = true ∧
            (0xF0 + n / 262144 = 0xF0 → 0x90 ≤ 0x80 + n / 4096 % 64) ∧
            (0xF0 + n / 262144 = 0xF4 → 0x80 + n / 4096 % 64 ≤ 0x8F) := by
          unfold isUtf8Cont
          simp only [decide_eq_true_eq, Bool.and_eq_true]
          omega
        simp only [if_pos hguard, Option.some.injEq, Prod.mk.injEq]
        exact ⟨by omega, trivial⟩

theorem utf8Decode_utf8Encode (cps : List Nat) (h : ∀ n ∈ cps, Utf8Scalar n) :
    utf8Decode (utf8Encode cps) = some cps := by
  induction cps with
  | nil => exact utf8Decode_nil
  | cons n rest ih =>
    have hn : Utf8Scalar n := h n (by simp)
    have hrest : ∀ m ∈ rest, Utf8Scalar m := fun m hm => h m (by simp [hm])
    have hstep : utf8Step (utf8EncodeCp n ++ utf8Encode rest) = some (n, utf8Encode rest) :=
      utf8Step_encodeCp n hn (utf8Encode rest)
    show utf8Decode (utf8EncodeCp n ++ utf8Encode rest) = _
    rw [utf8Decode_step_some hstep, ih hrest]
    rfl

theorem utf8Encode_cons (n : Nat) (cps : List Nat) :
    utf8Encode (n :: cps) = utf8EncodeCp n ++ utf8Encode cps := by
  simp [utf8Encode]

theorem utf8Step_sound {l : List Nat} {cp : Nat} {rest : List Nat}
    (h : utf8Step l = some (cp, rest)) :
    Utf8Scalar cp ∧ utf8EncodeCp cp ++ rest = l := by
  rcases l with _ | ⟨b, _ | ⟨c1, _ | ⟨c2, _ | ⟨c3, bs⟩⟩⟩⟩
  · simp [utf8Step] at h
  all_goals
    simp only [utf8Step, isUtf8Cont, Bool.and_eq_true, decide_eq_true_eq] at h
    split_ifs at h <;>
      cases h <;>
      refine ⟨by unfold Utf8Scalar; omega, ?_⟩ <;>
      unfold utf8EncodeCp <;>
      (first
        | rw [if_pos (by omega)]
        | rw [if_neg (by omega), if_pos (by omega)]
        | rw [if_neg (by omega), if_neg (by omega), if_pos (by omega)]
        | rw [if_neg (by omega), if_neg (by omega), if_neg (by omega)]) <;>
      simp only [List.cons_append, List.nil_append, List.cons.injEq, and_true] <;>
      omega

theorem utf8Decode_soundAux (N : Nat) : ∀ l : List Nat, l.length ≤ N →
    ∀ cps : List Nat, utf8Decode l = some cps →
    (∀ n ∈ cps, Utf8Scalar n) ∧ utf8Encode cps = l := by
  induction N with
  | zero =>
    intro l hl cps h
    rcases l with _ | ⟨b, bs⟩
    · rw [utf8Decode_nil] at h
      cases h
      exact ⟨by simp, rfl⟩
    · simp at hl
  | succ N ih =>
    intro l hl cps h
    rcases l with _ | ⟨b, bs⟩
    · rw [utf8Decode_nil] at h
      cases h
      exact ⟨by simp, rfl⟩
    · rcases hs : utf8Step (b :: bs) with _ | ⟨cp, rest⟩
      · have hnone : utf8Decode (b :: bs) = none := by
          show utf8DecodeFuel (bs.length + 1) (b :: bs) = none
          simp only [utf8DecodeFuel, hs]
        rw [hnone] at h
        cases h
      · rw [utf8Decode_step_some hs] at h
        rcases hr : utf8Decode rest with _ | cps2
        · rw [hr] at h
          simp at h
        · rw [hr] at h
          simp only [Option.map] at h
          cases h
          have hlen : rest.length ≤ N := by
            have := utf8Step_length hs
            simp only [List.length_cons] at this hl
            omega
          obtain ⟨hsc, henc⟩ := ih rest hlen cps2 hr
          obtain ⟨hcp, hencCp⟩ := utf8Step_sound hs
          constructor
          · intro n hn
            rcases List.mem_cons.mp hn with hn | hn
            · exact hn ▸ hcp
            · exact hsc n hn
          · rw [utf8Encode_cons, henc, hencCp]

theorem utf8Decode_sound {l cps : List Nat} (h : utf8Decode l = some cps) :
    (∀ n ∈ cps, Utf8Scalar n) ∧ utf8Encode cps = l :=
  utf8Decode_soundAux l.length l (Nat.le_refl _) cps h

/-- Correctness of the embedded strict UTF-8 decoder: it succeeds exactly on
the valid UTF-8 byte strings. -/
theorem utf8Decode_isSome_iff (bs : List Nat) :
    (utf8Decode bs).isSome ↔ ValidUtf8 bs := by
  constructor
  · intro h
    rcases hd : utf8Decode bs with _ | cps
    · rw [hd] at h
      cases h
    · obtain ⟨hsc, henc⟩ := utf8Decode_sound hd
      exact ⟨cps, hsc, henc⟩
  · rintro ⟨cps, hsc, henc⟩
    rw [← henc, utf8Decode_utf8Encode cps hsc]
    rfl

/-! ## Claim theorems -/

/-- C4: the claim fails on the code, and the code contradicts the
repository's own unit tests (code bug).  For every service base address the
generated WSDL's targetNamespace is `serviceAddress ++ "/echo/soap"` as
claimed, but the binding operation's soapAction and the service port's
address location are BOTH also exactly `serviceAddress ++ "/echo/soap"` —
not `targetNamespace ++ "/echo"` and not `targetNamespace ++ "/"` as the
claim (and the tests) state; the last two conjuncts exhibit the actual
values at the address the tests use. -/
theorem c4_make_wsdl_addresses (addr : String) :
    wsdlTargetNamespace (make_wsdl addr) = some (SOAP_TNS addr) ∧
    wsdlSoapAction (make_wsdl addr) = some (SOAP_TNS addr) ∧
    wsdlPortLocation (make_wsdl addr) = some (SOAP_TNS addr) ∧
    wsdlSoapAction (make_wsdl "http://example.com:8080") =
      some "http://example.com:8080/echo/soap" ∧
    wsdlPortLocation (make_wsdl "http://example.com:8080") =
      some "http://example.com:8080/echo/soap" := by
  have hAct : ∀ a : String, wsdlSoapAction (make_wsdl a) = some (SOAP_TNS a) := by
    intro a
    simp [wsdlSoapAction, make_wsdl, addMessage, addOperation, bindOperation, findDescList,
      XmlElem.children, XmlElem.attr, XmlElem.attrs, XmlElem.tag, qname, SOAP_WSDL, SOAP_NS,
      SOAP_XSD, SOAP_ENVELOPE, SOAP_TNS]
  have hLoc : ∀ a : String, wsdlPortLocation (make_wsdl a) = some (SOAP_TNS a) := by
    intro a
    simp [wsdlPortLocation, make_wsdl, addMessage, addOperation, bindOperation, findDescList,
      XmlElem.children, XmlElem.attr, XmlElem.attrs, XmlElem.tag, qname, SOAP_WSDL, SOAP_NS,
      SOAP_XSD, SOAP_ENVELOPE, SOAP_TNS]
  exact ⟨rfl, hAct addr, hLoc addr, hAct "http://example.com:8080", hLoc "http://example.com:8080"⟩

/-- C8: confirmed — `parse_soap_echo_request` applied to a manually
constructed request envelope whose Body holds an unqualified EchoRequest
element with text `x` returns exactly `x`, including `x = ""`, and a missing
text also yields `""` (never null). -/
theorem c8_parse_constructed_envelope (x : String) :
    parse_soap_echo_request (soapRequestEnvelope (some x)) = Except.ok x ∧
    parse_soap_echo_request (soapRequestEnvelope none) = Except.ok "" := by
  constructor <;>
    simp [parse_soap_echo_request, soapRequestEnvelope, findDescList, findChild,
      qname, SOAP_ENVELOPE, XmlElem.children, XmlElem.tag, XmlElem.text, Option.getD]

/-- C3 counterexample: a well-formed envelope whose non-empty Body has a
direct child with local tag `EchoRequest` — but qualified with a namespace —
makes `parse_soap_echo_request` fail with MissingRequestElement instead of
succeeding with its text as the claim states: the lookup is
namespace-sensitive, not namespace-agnostic. -/
theorem c3_counterexample_namespaced_child :
    (∃ body, findDescList (qname SOAP_ENVELOPE "Body")
        soapNamespacedRequestEnvelope.children = some body ∧
      body.children ≠ [] ∧
      ∃ el, el ∈ body.children ∧ localTag el.tag = "EchoRequest") ∧
    parse_soap_echo_request soapNamespacedRequestEnvelope =
      Except.error "Missing EchoRequest element" := by
  constructor
  · refine ⟨XmlElem.mk (qname SOAP_ENVELOPE "Body") [] none
      [XmlElem.mk (qname (SOAP_TNS "http://0.0.0.0:5080") "EchoRequest") [] (some "x") []],
      ?_, List.cons_ne_nil _ _, ?_⟩
    · simp [soapNamespacedRequestEnvelope, findDescList, qname, SOAP_ENVELOPE, SOAP_TNS,
        XmlElem.children, XmlElem.tag]
    · refine ⟨XmlElem.mk (qname (SOAP_TNS "http://0.0.0.0:5080") "EchoRequest") []
        (some "x") [], List.mem_singleton.mpr rfl, ?_⟩
      simp [localTag, dropThroughBrace, qname, SOAP_TNS, XmlElem.tag]
  · simp [parse_soap_echo_request, soapNamespacedRequestEnvelope, findDescList, findChild,
      qname, SOAP_ENVELOPE, SOAP_TNS, XmlElem.children, XmlElem.tag, XmlElem.text]

/-- C3 amended: with a located, non-empty Body, `parse_soap_echo_request`
matches only DIRECT children whose tag is literally the unqualified name
"EchoRequest": when no such child exists (in particular when the only
EchoRequest children are namespace-qualified) it fails with
MissingRequestElement, and when the lookup finds such a child it returns that
child's text, `""` for missing text. -/
theorem c3_amended_unqualified_lookup (doc body : XmlElem)
    (hb : findDescList (qname SOAP_ENVELOPE "Body") doc.children = some body)
    (hne : body.children ≠ []) :
    ((∀ el ∈ body.children, el.tag ≠ "EchoRequest") →
      parse_soap_echo_request doc = Except.error "Missing EchoRequest element") ∧
    (∀ el, findChild "EchoRequest" body = some el →
      parse_soap_echo_request doc = Except.ok (el.text.getD "")) := by
  have hlen : ¬ body.children.length = 0 := by
    intro h0
    exact hne (List.length_eq_zero.mp h0)
  constructor
  · intro hall
    have hfc : findChild "EchoRequest" body = none := by
      unfold findChild
      apply List.find?_eq_none.mpr
      intro el hel
      simpa using hall el hel
    unfold parse_soap_echo_request
    rw [hb]
    simp only [if_neg hlen, hfc]
  · intro el hel
    unfold parse_soap_echo_request
    rw [hb]
    simp only [if_neg hlen, hel]

theorem c3_amended_witness :
    parse_soap_echo_request soapOtherChildEnvelope =
      Except.error "Missing EchoRequest element" := by
  have hb : findDescList (qname SOAP_ENVELOPE "Body") soapOtherChildEnvelope.children =
      some (XmlElem.mk (qname SOAP_ENVELOPE "Body") [] none
        [XmlElem.mk "Other" [] (some "x") []]) := by
    simp [soapOtherChildEnvelope, findDescList, qname, SOAP_ENVELOPE,
      XmlElem.children, XmlElem.tag]
  apply (c3_amended_unqualified_lookup soapOtherChildEnvelope _ hb
    (List.cons_ne_nil _ _)).1
  intro el hel
  have h1 := List.mem_singleton.mp hel
  subst h1
  simp [XmlElem.tag]

/-- Helper: the only error messages `parse_soap_echo_request` can produce. -/
theorem parse_soap_error_msg (doc : XmlElem) (msg : String)
    (h : parse_soap_echo_request doc = Except.error msg) :
    msg = "Empty SOAP Body" ∨ msg = "Missing EchoRequest element" := by
  unfold parse_soap_echo_request at h
  rcases hb : findDescList (qname SOAP_ENVELOPE "Body") doc.children with _ | body
  · rw [hb] at h
    dsimp only at h
    cases h
    exact Or.inl rfl
  · rw [hb] at h
    dsimp only at h
    by_cases hlen : body.children.length = 0
    · rw [if_pos hlen] at h
      cases h
      exact Or.inl rfl
    · rw [if_neg hlen] at h
      rcases hfc : findChild "EchoRequest" body with _ | el
      · rw [hfc] at h
        dsimp only at h
        cases h
        exact Or.inr rfl
      · rw [hfc] at h
        dsimp only at h
        cases h

/-- C5: confirmed — the SOAP POST handler returns HTTP 500 with a
`faultcode="Client"` fault envelope and XML content type exactly on the
parse failures, with the message determined by the failure kind
(malformed XML / missing-or-childless envelope-namespace Body /
no EchoRequest child), and no response other than these three faults has a
non-200 status. -/
theorem c5_soap_error_paths (xmlParse : List Nat → Option XmlElem)
    (dumps : Json → String) (addr : String) (req : Request) :
    (∀ m, soapFaultResponse addr m =
      ⟨500, "application/xml", make_fault_response_body addr "Client" m⟩) ∧
    (xmlParse req.data = none →
      echo_soap xmlParse dumps addr req =
        some (soapFaultResponse addr "Malformed request data")) ∧
    (∀ doc msg, xmlParse req.data = some doc →
      parse_soap_echo_request doc = Except.error msg →
      echo_soap xmlParse dumps addr req = some (soapFaultResponse addr msg) ∧
      (msg = "Empty SOAP Body" ∨ msg = "Missing EchoRequest element")) ∧
    (∀ doc, xmlParse req.data = some doc →
      (findDescList (qname SOAP_ENVELOPE "Body") doc.children = none ∨
        ∃ body, findDescList (qname SOAP_ENVELOPE "Body") doc.children = some body ∧
          body.children = []) →
      parse_soap_echo_request doc = Except.error "Empty SOAP Body") ∧
    (∀ r, echo_soap xmlParse dumps addr req = some r → r.status ≠ 200 →
      (r = soapFaultResponse addr "Malformed request data" ∨
       r = soapFaultResponse addr "Empty SOAP Body" ∨
       r = soapFaultResponse addr "Missing EchoRequest element")) := by
  refine ⟨fun m => rfl, ?_, ?_, ?_, ?_⟩
  · intro h
    unfold echo_soap
    rw [h]
  · intro doc msg h hp
    refine ⟨?_, parse_soap_error_msg doc msg hp⟩
    unfold echo_soap
    rw [h]
    dsimp only
    rw [hp]
  · intro doc h hcond
    unfold parse_soap_echo_request
    rcases hcond with hnone | ⟨body, hb, hemp⟩
    · rw [hnone]
    · rw [hb]
      dsimp only
      rw [hemp]
      simp
  · intro r h hstatus
    unfold echo_soap at h
    rcases hx : xmlParse req.data with _ | doc
    · rw [hx] at h
      dsimp only at h
      cases h
      exact Or.inl rfl
    · rw [hx] at h
      dsimp only at h
      rcases hp : parse_soap_echo_request doc with msg | t
      · rw [hp] at h
        dsimp only at h
        cases h
        rcases parse_soap_error_msg doc msg hp with rfl | rfl
        · exact Or.inr (Or.inl rfl)
        · exact Or.inr (Or.inr rfl)
      · rw [hp] at h
        dsimp only at h
        rcases he : echo req none (some (Json.s t)) with _ | d
        · rw [he] at h
          cases h
        · rw [he] at h
          dsimp only at h
          cases h
          exact absurd rfl hstatus

theorem c5_witness :
    echo_soap (xmlParseConst none) dumpsConst "A" reqHi =
      some (soapFaultResponse "A" "Malformed request data") :=
  (c5_soap_error_paths (xmlParseConst none) dumpsConst "A" reqHi).2.1 rfl

/-- C2 counterexample: a SOAP POST whose body is a well-formed XML document
in a declared non-UTF-8 encoding (here the iso-8859-1 bytes of
`latin1SoapBytes`, containing the single byte 0xE9 for `é`): the XML parser
accepts it and `parse_soap_echo_request` succeeds with text "é", yet the
body bytes are not valid UTF-8, so the normalizer raises a
`UnicodeDecodeError` that the handler's success branch does not catch — no
response, in particular no HTTP 200, is produced, contrary to the claim. -/
theorem c2_counterexample_nonutf8_body :
    parse_soap_echo_request (soapRequestEnvelope (some "é")) = Except.ok "é" ∧
    utf8Decode reqLatin1.data = none ∧
    echo_soap (xmlParseConst (some (soapRequestEnvelope (some "é")))) dumpsConst
      "http://0.0.0.0:5080" reqLatin1 = none := by
  have hp : parse_soap_echo_request (soapRequestEnvelope (some "é")) = Except.ok "é" := by
    simp [parse_soap_echo_request, soapRequestEnvelope, findDescList, findChild,
      qname, SOAP_ENVELOPE, XmlElem.children, XmlElem.tag, XmlElem.text, Option.getD]
  have hdec : utf8Decode reqLatin1.data = none := rfl
  refine ⟨hp, hdec, ?_⟩
  unfold echo_soap xmlParseConst
  dsimp only
  rw [hp]
  dsimp only
  have he : echo reqLatin1 none (some (Json.s "é")) = none := by
    unfold echo
    rw [hdec]
    rfl
  rw [he]

/-- C2 amended: when the SOAP body parses to text `t` AND the request bytes
are valid UTF-8 (true of every UTF-8-encoded document), the handler runs the
normalizer with `op_result = t` and answers HTTP 200,
`application/xml; charset=utf-8`, with a response envelope whose
`EchoResponse` element's text is the `json.dumps` rendering of the entire
EchoDocument; but when the successfully parsed body bytes are NOT valid
UTF-8 (a declared non-UTF-8 encoding), the normalizer's `UnicodeDecodeError`
escapes the handler uncaught and no response — in particular no HTTP 200 —
is returned. -/
theorem c2_soap_success (xmlParse : List Nat → Option XmlElem) (dumps : Json → String)
    (addr : String) (req : Request) (doc : XmlElem) (t : String)
    (hx : xmlParse req.data = some doc)
    (hp : parse_soap_echo_request doc = Except.ok t) :
    ((utf8Decode req.data).isSome →
      ∃ d, echo req none (some (Json.s t)) = some d ∧
        d.op_result = some (Json.s t) ∧
        echo_soap xmlParse dumps addr req =
          some { status := 200, contentType := "application/xml; charset=utf-8",
                 body := make_response_body addr (dumps d.toJson) } ∧
        findDescList "EchoResponse" (make_response_body addr (dumps d.toJson)).children =
          some (XmlElem.mk "EchoResponse" [] (some (dumps d.toJson)) [])) ∧
    (utf8Decode req.data = none → echo_soap xmlParse dumps addr req = none) := by
  constructor
  · intro hdec
    rcases hcps : utf8Decode req.data with _ | cps
    · rw [hcps] at hdec
      cases hdec
    · have he : echo req none (some (Json.s t)) =
          some { host := req.remote_addr, port := req.remote_port, method := req.method,
                 path := req.path, protocol := req.server_protocol,
                 params := markupEscapeParam none, query_param := req.args,
                 headers := req.headers.map
                   (fun p => (p.1, (headerGet req.headers p.1).getD "")),
                 body := if req.form.isEmpty then Sum.inl (strOfCps cps) else Sum.inr req.form,
                 op_result := some (Json.s t) } := by
        unfold echo
        rw [hcps]
        rfl
      refine ⟨_, he, rfl, ?_, ?_⟩
      · unfold echo_soap
        rw [hx]
        dsimp only
        rw [hp]
        dsimp only
        rw [he]
      · simp [make_response_body, findDescList, qname, SOAP_ENVELOPE, SOAP_TNS,
          XmlElem.children, XmlElem.tag]
  · intro hnone
    unfold echo_soap
    rw [hx]
    dsimp only
    rw [hp]
    dsimp only
    have he : echo req none (some (Json.s t)) = none := by
      unfold echo
      rw [hnone]
      rfl
    rw [he]

theorem c2_witness :
    (∃ d, echo reqHi none (some (Json.s "Hi")) = some d ∧
      d.op_result = some (Json.s "Hi") ∧
      echo_soap (xmlParseConst (some (soapRequestEnvelope (some "Hi")))) dumpsConst "A" reqHi =
        some { status := 200, contentType := "application/xml; charset=utf-8",
               body := make_response_body "A" (dumpsConst d.toJson) } ∧
      findDescList "EchoResponse" (make_response_body "A" (dumpsConst d.toJson)).children =
        some (XmlElem.mk "EchoResponse" [] (some (dumpsConst d.toJson)) [])) ∧
    echo_soap (xmlParseConst (some (soapRequestEnvelope (some "é")))) dumpsConst
      "http://0.0.0.0:5080" reqLatin1 = none := by
  have hpHi : parse_soap_echo_request (soapRequestEnvelope (some "Hi")) = Except.ok "Hi" := by
    simp [parse_soap_echo_request, soapRequestEnvelope, findDescList, findChild,
      qname, SOAP_ENVELOPE, XmlElem.children, XmlElem.tag, XmlElem.text, Option.getD]
  have hpLatin : parse_soap_echo_request (soapRequestEnvelope (some "é")) = Except.ok "é" := by
    simp [parse_soap_echo_request, soapRequestEnvelope, findDescList, findChild,
      qname, SOAP_ENVELOPE, XmlElem.children, XmlElem.tag, XmlElem.text, Option.getD]
  constructor
  · exact (c2_soap_success (xmlParseConst (some (soapRequestEnvelope (some "Hi"))))
      dumpsConst "A" reqHi (soapRequestEnvelope (some "Hi")) "Hi" rfl hpHi).1 rfl
  · exact (c2_soap_success (xmlParseConst (some (soapRequestEnvelope (some "é"))))
      dumpsConst "http://0.0.0.0:5080" reqLatin1 (soapRequestEnvelope (some "é")) "é"
      rfl hpLatin).2 rfl

/-- C1: confirmed — the normalizer succeeds exactly on valid-UTF-8 bodies
(for every path parameter and op-result), and the REST handler answers
HTTP 200 `application/json` with the serialized EchoDocument on valid UTF-8,
HTTP 500 `application/json` with `{"error": "Request must be valid Unicode"}`
otherwise. -/
theorem c1_rest_unicode (req : Request) :
    (∀ p o, (echo req p o).isSome ↔ ValidUtf8 req.data) ∧
    (ValidUtf8 req.data →
      ∃ cps d, utf8Decode req.data = some cps ∧
        echo req none (some (Json.s (strOfCps cps))) = some d ∧
        rest req = { status := 200, contentType := "application/json", body := d.toJson }) ∧
    (¬ ValidUtf8 req.data →
      rest req = { status := 500, contentType := "application/json", body := restErrorBody }) ∧
    restErrorBody = Json.obj [("error", Json.s "Request must be valid Unicode")] := by
  have hiff : ∀ p o, (echo req p o).isSome ↔ ValidUtf8 req.data := by
    intro p o
    rw [← utf8Decode_isSome_iff]
    unfold echo
    cases utf8Decode req.data <;> simp
  refine ⟨hiff, ?_, ?_, rfl⟩
  · intro hv
    have hd : (utf8Decode req.data).isSome := (utf8Decode_isSome_iff _).mpr hv
    rcases hcps : utf8Decode req.data with _ | cps
    · rw [hcps] at hd
      cases hd
    · have he : echo req none (some (Json.s (strOfCps cps))) =
          some { host := req.remote_addr, port := req.remote_port, method := req.method,
                 path := req.path, protocol := req.server_protocol,
                 params := markupEscapeParam none, query_param := req.args,
                 headers := req.headers.map
                   (fun p => (p.1, (headerGet req.headers p.1).getD "")),
                 body := if req.form.isEmpty then Sum.inl (strOfCps cps) else Sum.inr req.form,
                 op_result := some (Json.s (strOfCps cps)) } := by
        unfold echo
        rw [hcps]
        rfl
      refine ⟨cps, _, rfl, he, ?_⟩
      unfold rest
      rw [hcps]
      dsimp only [Option.bind]
      rw [he]
  · intro hv
    have hd : utf8Decode req.data = none := by
      rcases hcps : utf8Decode req.data with _ | cps
      · rfl
      · exact absurd ((utf8Decode_isSome_iff _).mp (by rw [hcps]; rfl)) hv
    unfold rest
    rw [hd]
    rfl

theorem c1_witness :
    (∃ cps d, utf8Decode reqHi.data = some cps ∧
      echo reqHi none (some (Json.s (strOfCps cps))) = some d ∧
      rest reqHi = { status := 200, contentType := "application/json", body := d.toJson }) ∧
    rest reqBad = { status := 500, contentType := "application/json",
                    body := restErrorBody } := by
  constructor
  · exact (c1_rest_unicode reqHi).2.1 ⟨[104, 105], by decide, rfl⟩
  · apply (c1_rest_unicode reqBad).2.2.1
    intro hv
    have hs := (utf8Decode_isSome_iff reqBad.data).mpr hv
    rw [show utf8Decode reqBad.data = none from rfl] at hs
    cases hs

/-- C9: confirmed — whenever the normalizer succeeds, `request.params` is the
HTML/XML-escape of the path parameter; for an absent (`None`) parameter it is
the fixed non-empty placeholder `"None"` (Python's textual rendering of
`None`, escaped), identical on every call, never `""` and never null. -/
theorem c9_params_escaping (req : Request) (o : Option Json) :
    (∀ p d, echo req (some p) o = some d → d.params = markupEscape p) ∧
    (∀ d, echo req none o = some d →
      d.params = markupEscape "None" ∧ d.params = "None") ∧
    ("None" : String) ≠ "" := by
  refine ⟨?_, ?_, by decide⟩
  · intro p d h
    unfold echo at h
    rcases hcps : utf8Decode req.data with _ | cps
    · rw [hcps] at h
      cases h
    · rw [hcps] at h
      dsimp only [Option.map] at h
      cases h
      rfl
  · intro d h
    unfold echo at h
    rcases hcps : utf8Decode req.data with _ | cps
    · rw [hcps] at h
      cases h
    · rw [hcps] at h
      dsimp only [Option.map] at h
      cases h
      exact ⟨rfl, rfl⟩

theorem c9_witness :
    ∃ d, echo reqHi (some "<a>") none = some d ∧ d.params = markupEscape "<a>" ∧
      markupEscape "<a>" = "&lt;a&gt;" := by
  refine ⟨_, rfl, (c9_params_escaping reqHi none).1 "<a>" _ rfl, rfl⟩

/-- Helper: the header lookup only depends on the case-folded name. -/
theorem headerGet_congr (hs : List (String × String)) (n1 n2 : String)
    (h : asciiLower n1 = asciiLower n2) : headerGet hs n1 = headerGet hs n2 := by
  unfold headerGet
  rw [h]

/-- Helper: the header lookup returns the value at the first position whose
name matches case-insensitively. -/
theorem headerGet_first (l : List (String × String)) : ∀ (i : Nat) (ni vi : String),
    l[i]? = some (ni, vi) →
    (∀ (k : Nat) (nk vk : String), k < i → l[k]? = some (nk, vk) →
      asciiLower nk ≠ asciiLower ni) →
    headerGet l ni = some vi := by
  induction l with
  | nil =>
    intro i ni vi hi
    simp at hi
  | cons p rest ih =>
    intro i ni vi hi hk
    rcases i with _ | m
    · rw [List.getElem?_cons_zero] at hi
      cases hi
      have h1 : (asciiLower (ni, vi).1 == asciiLower ni) = true := by simp
      simp [headerGet, List.find?_cons, h1]
    · rw [List.getElem?_cons_succ] at hi
      have h0 : (asciiLower p.1 == asciiLower ni) = false := by
        simp only [beq_eq_false_iff_ne, ne_eq]
        exact hk 0 p.1 p.2 (Nat.succ_pos m) (by simp)
      have hstep : headerGet (p :: rest) ni = headerGet rest ni := by
        simp [headerGet, List.find?_cons, h0]
      rw [hstep]
      exact ih m ni vi hi (fun k nk vk hlt hke =>
        hk (k + 1) nk vk (by omega) (by rw [List.getElem?_cons_succ]; exact hke))

/-- C10: confirmed — whenever the normalizer succeeds, it emits one
single-key object per received header instance, preserving names and arrival
order; but the value attached to each instance is looked up by name, so any
two instances with (case-insensitively) equal names carry the same value,
namely the value of the name's first occurrence: the values of later
duplicate occurrences never appear. -/
theorem c10_duplicate_headers (req : Request) (p : Option String) (o : Option Json)
    (d : EchoDoc) (h : echo req p o = some d) :
    d.headers.map Prod.fst = req.headers.map Prod.fst ∧
    (∀ i : Nat, d.headers[i]? = (req.headers[i]?).map
      (fun q => (q.1, (headerGet req.headers q.1).getD ""))) ∧
    (∀ (i j : Nat) (ni vi nj vj : String), req.headers[i]? = some (ni, vi) →
      req.headers[j]? = some (nj, vj) → asciiLower ni = asciiLower nj →
      (d.headers[i]?).map Prod.snd = (d.headers[j]?).map Prod.snd) ∧
    (∀ (i : Nat) (ni vi : String), req.headers[i]? = some (ni, vi) →
      (∀ (k : Nat) (nk vk : String), k < i → req.headers[k]? = some (nk, vk) →
        asciiLower nk ≠ asciiLower ni) →
      d.headers[i]? = some (ni, vi)) := by
  have hd : d.headers = req.headers.map
      (fun q => (q.1, (headerGet req.headers q.1).getD "")) := by
    unfold echo at h
    rcases hcps : utf8Decode req.data with _ | cps
    · rw [hcps] at h
      cases h
    · rw [hcps] at h
      dsimp only [Option.map] at h
      cases h
      rfl
  refine ⟨?_, ?_, ?_, ?_⟩
  · rw [hd, List.map_map]
    rfl
  · intro i
    rw [hd, List.getElem?_map]
  · intro i j ni vi nj vj hi hj hname
    rw [hd, List.getElem?_map, List.getElem?_map, hi, hj]
    dsimp only [Option.map]
    rw [headerGet_congr req.headers ni nj hname]
  · intro i ni vi hi hk
    rw [hd, List.getElem?_map, hi]
    dsimp only [Option.map]
    rw [headerGet_first req.headers i ni vi hi hk]
    rfl

theorem c10_witness :
    ∃ d, echo reqHi none none = some d ∧
      d.headers.map Prod.fst = reqHi.headers.map Prod.fst ∧
      (d.headers[1]?).map Prod.snd = (d.headers[0]?).map Prod.snd := by
  refine ⟨_, rfl, (c10_duplicate_headers reqHi none none _ rfl).1, ?_⟩
  exact (c10_duplicate_headers reqHi none none _ rfl).2.2.1 1 0 "X-Dup" "b" "X-Dup" "a"
    rfl rfl rfl

/-- C6: confirmed — the JSON-RPC schema validation rejects every object
missing one of `jsonrpc, method, params, id`, every object whose `jsonrpc` is
not exactly the string "2.0", every object whose `method` is the empty
string, and every object with an extra top-level property; and it accepts
`id` values that are an integer, a string, or null. -/
theorem c6_rpc_schema_validation :
    (∀ (kvs : List (String × Json)) (k : String), k ∈ rpcRequiredKeys →
      Json.lookup kvs k = none → validateRpc (Json.obj kvs) = false) ∧
    (∀ (kvs : List (String × Json)) (j : Json), Json.lookup kvs "jsonrpc" = some j →
      j ≠ Json.s "2.0" → validateRpc (Json.obj kvs) = false) ∧
    (∀ kvs : List (String × Json), Json.lookup kvs "method" = some (Json.s "") →
      validateRpc (Json.obj kvs) = false) ∧
    (∀ (kvs : List (String × Json)) (k : String) (v : Json), (k, v) ∈ kvs →
      k ∉ rpcRequiredKeys → validateRpc (Json.obj kvs) = false) ∧
    ((∀ n : Int, rpcIdOk (Json.i n) = true) ∧ (∀ t : String, rpcIdOk (Json.s t) = true) ∧
      rpcIdOk Json.null = true) ∧
    (∀ idv : Json, rpcIdOk idv = true →
      validateRpc (Json.obj [("jsonrpc", Json.s "2.0"), ("method", Json.s "echo"),
        ("params", Json.arr []), ("id", idv)]) = true) := by
  refine ⟨?_, ?_, ?_, ?_, ⟨fun n => rfl, fun t => rfl, rfl⟩, ?_⟩
  · intro kvs k hk hnone
    simp only [rpcRequiredKeys, List.mem_cons, List.not_mem_nil, or_false] at hk
    simp only [validateRpc]
    rcases hk with rfl | rfl | rfl | rfl <;>
      simp [rpcRequiredKeys, hnone]
  · intro kvs j hlook hne
    have hC : (Json.lookup kvs "jsonrpc").all rpcJsonrpcOk = false := by
      rw [hlook]
      cases j with
      | s sx =>
        simp only [Option.all, rpcJsonrpcOk, beq_eq_false_iff_ne, ne_eq]
        intro heq
        exact hne (by rw [heq])
      | null => rfl
      | b x => rfl
      | i n => rfl
      | arr xs => rfl
      | obj kvs2 => rfl
    simp only [validateRpc]
    rw [hC]
    simp
  · intro kvs hlook
    have hC : (Json.lookup kvs "method").all rpcMethodOk = false := by
      rw [hlook]
      rfl
    simp only [validateRpc]
    rw [hC]
    simp
  · intro kvs k v hmem hk
    have hB : kvs.all (fun kv => rpcRequiredKeys.contains kv.1) = false := by
      apply List.all_eq_false.mpr
      refine ⟨(k, v), hmem, ?_⟩
      simp [List.contains, hk]
    simp only [validateRpc]
    rw [hB]
    simp
  · intro idv hid
    simp [validateRpc, rpcRequiredKeys, Json.lookup, rpcJsonrpcOk, rpcMethodOk,
      rpcParamsOk, hid]
    decide

theorem c6_witness :
    validateRpc (Json.obj [("jsonrpc", Json.s "2.0"), ("method", Json.s "echo"),
      ("params", Json.arr []), ("id", Json.null)]) = true ∧
    validateRpc (Json.obj []) = false ∧
    validateRpc (Json.obj [("jsonrpc", Json.s "1.0"), ("method", Json.s "echo"),
      ("params", Json.arr []), ("id", Json.null)]) = false := by
  refine ⟨c6_rpc_schema_validation.2.2.2.2.2 Json.null rfl, ?_, ?_⟩
  · exact c6_rpc_schema_validation.1 [] "jsonrpc" (by simp [rpcRequiredKeys]) rfl
  · exact c6_rpc_schema_validation.2.1 _ (Json.s "1.0") rfl (by simp)

/-- C7: confirmed — the JSON-RPC handler answers HTTP 400 with
`{"jsonrpc": "2.0", "error": {"code": -32700, "message": "Parse error"},
"id": null}` when the body is not valid UTF-8, not valid JSON, or fails
schema validation; HTTP 200 with error `-32601` "Method not found" and the
request's id when a validated request's method is not "echo"; and HTTP 200
with `{"jsonrpc": "2.0", "result": <EchoDocument>, "id": <request id>}` when
the method is "echo". -/
theorem c7_rpc_dispatch (jsonLoads : String → Option Json) (req : Request) :
    (utf8Decode req.data = none → rpc_endpoint jsonLoads req = rpcParseErrorResponse) ∧
    (∀ cps : List Nat, utf8Decode req.data = some cps → jsonLoads (strOfCps cps) = none →
      rpc_endpoint jsonLoads req = rpcParseErrorResponse) ∧
    (∀ (cps : List Nat) (v : Json), utf8Decode req.data = some cps →
      jsonLoads (strOfCps cps) = some v → validateRpc v = false →
      rpc_endpoint jsonLoads req = rpcParseErrorResponse) ∧
    (rpcParseErrorResponse.status = 400 ∧ rpcParseErrorResponse.body =
      Json.obj [("jsonrpc", Json.s "2.0"),
        ("error", Json.obj [("code", Json.i (-32700)), ("message", Json.s "Parse error")]),
        ("id", Json.null)]) ∧
    (∀ (cps : List Nat) (v : Json) (kvs : List (String × Json)) (m : String),
      utf8Decode req.data = some cps → jsonLoads (strOfCps cps) = some v →
      validateRpc v = true → v = Json.obj kvs →
      Json.lookup kvs "method" = some (Json.s m) → m ≠ "echo" →
      rpc_endpoint jsonLoads req =
        { status := 200, contentType := "application/json",
          body := rpcMethodNotFoundBody ((Json.lookup kvs "id").getD Json.null) }) ∧
    (∀ (cps : List Nat) (v : Json) (kvs : List (String × Json)),
      utf8Decode req.data = some cps → jsonLoads (strOfCps cps) = some v →
      validateRpc v = true → v = Json.obj kvs →
      Json.lookup kvs "method" = some (Json.s "echo") →
      ∃ d, echo req none (some v) = some d ∧
        rpc_endpoint jsonLoads req =
          { status := 200, contentType := "application/json",
            body := Json.obj [("jsonrpc", Json.s "2.0"), ("result", d.toJson),
                              ("id", (Json.lookup kvs "id").getD Json.null)] }) := by
  refine ⟨?_, ?_, ?_, ⟨rfl, rfl⟩, ?_, ?_⟩
  · intro h
    unfold rpc_endpoint parse_rpc_echo_request
    rw [h]
  · intro cps hcps hload
    unfold rpc_endpoint parse_rpc_echo_request
    rw [hcps]
    dsimp only
    rw [hload]
  · intro cps v hcps hload hval
    unfold rpc_endpoint parse_rpc_echo_request
    rw [hcps]
    dsimp only
    rw [hload]
    dsimp only
    rw [hval]
    simp
  · intro cps v kvs m hcps hload hval hobj hm hne
    subst hobj
    unfold rpc_endpoint parse_rpc_echo_request
    rw [hcps]
    dsimp only
    rw [hload]
    dsimp only
    rw [if_pos hval]
    simp only [Json.objFields]
    rw [hm]
    dsimp only
    rw [if_neg hne]
  · intro cps v kvs hcps hload hval hobj hm
    subst hobj
    have he : echo req none (some (Json.obj kvs)) =
        some { host := req.remote_addr, port := req.remote_port, method := req.method,
               path := req.path, protocol := req.server_protocol,
               params := markupEscapeParam none, query_param := req.args,
               headers := req.headers.map
                 (fun p => (p.1, (headerGet req.headers p.1).getD "")),
               body := if req.form.isEmpty then Sum.inl (strOfCps cps) else Sum.inr req.form,
               op_result := some (Json.obj kvs) } := by
      unfold echo
      rw [hcps]
      rfl
    refine ⟨_, he, ?_⟩
    unfold rpc_endpoint parse_rpc_echo_request
    rw [hcps]
    dsimp only
    rw [hload]
    dsimp only
    rw [if_pos hval]
    simp only [Json.objFields]
    rw [hm]
    dsimp only
    rw [if_pos rfl, he]

theorem c7_witness :
    ∃ d, echo reqHi none (some rpcSample) = some d ∧
      rpc_endpoint (jsonLoadsConst (some rpcSample)) reqHi =
        { status := 200, contentType := "application/json",
          body := Json.obj [("jsonrpc", Json.s "2.0"), ("result", d.toJson),
                            ("id", (Json.lookup rpcSampleFields "id").getD Json.null)] } :=
  (c7_rpc_dispatch (jsonLoadsConst (some rpcSample)) reqHi).2.2.2.2.2
    [104, 105] rpcSample rpcSampleFields rfl rfl rfl rfl rfl
